import Mathlib

/-!
Verification development for the radio-station audio client.

Shallow embedding of the real-time audio pipeline of the repository:
the PCM codec (float32ToInt16 / createPcmBlob / decodeAudioData in the
audio utilities), the speech playback scheduler (playBuffer in
GeminiLiveService), the microphone capture loop with mute gating, the
procedural music engine state (LoFiSynth: duck, setMasterVolume,
setMusicStyle, changeSong) and the news-lookup error handling
(fetchNews).  Audio-clock times, sample values and gain levels are
modelled as rationals; JavaScript 16-bit array stores are modelled with
explicit truncation toward zero and wrap-around modulo 2 to the 16.
-/

namespace Radio

/-! ## PCM codec (audio utilities, float32ToInt16 and decodeAudioData) -/

/-- Truncation toward zero, the rounding JavaScript applies when a number
is stored into an Int16Array (ToIntegerOrInfinity). -/
def truncTowardZero (q : ℚ) : ℤ := if 0 ≤ q then ⌊q⌋ else ⌈q⌉

/-- Wrap an integer into signed 16-bit range the way a JavaScript
Int16Array store does: reduce modulo 65536 into the range
[-32768, 32767]. -/
def wrap16 (n : ℤ) : ℤ := (n + 32768) % 65536 - 32768

/-- Store of a number into an Int16Array slot: truncate toward zero,
then wrap to 16 bits. -/
def toInt16 (q : ℚ) : ℤ := wrap16 (truncTowardZero q)

/-- Clipping of one sample to [-1, 1]: Math.max(-1, Math.min(1, x)) in
float32ToInt16. -/
def clip (x : ℚ) : ℚ := max (-1) (min 1 x)

/-- Encoding of one sample in float32ToInt16: clip, then scale negatives
by 0x8000 = 32768 and non-negatives by 0x7FFF = 32767, stored as a
16-bit integer. -/
def float32ToInt16Sample (x : ℚ) : ℤ :=
  if clip x < 0 then toInt16 (clip x * 32768) else toInt16 (clip x * 32767)

/-- float32ToInt16 over a whole captured frame. -/
def float32ToInt16 (xs : List ℚ) : List ℤ := xs.map float32ToInt16Sample

/-- Little-endian byte pair of one stored 16-bit value, as laid out in
the Int16Array buffer that createPcmBlob base64-encodes. -/
def int16ToBytesLE (i : ℤ) : List ℕ :=
  [((i % 65536).toNat) % 256, ((i % 65536).toNat) / 256]

/-- Wire bytes produced by createPcmBlob: the encoded samples packed
little-endian. -/
def encodeBytes (xs : List ℚ) : List ℕ :=
  ((float32ToInt16 xs).map int16ToBytesLE).flatten

/-- Reinterpretation of a byte stream as signed 16-bit little-endian
values, as done by new Int16Array(data.buffer) in decodeAudioData. -/
def bytesToInt16s : List ℕ → List ℤ
  | lo :: hi :: rest =>
      (if lo + 256 * hi < 32768 then ((lo + 256 * hi : ℕ) : ℤ)
       else ((lo + 256 * hi : ℕ) : ℤ) - 65536) :: bytesToInt16s rest
  | _ => []

/-- Normalization of one decoded 16-bit value in decodeAudioData:
divide by 32768. -/
def decodeSample (i : ℤ) : ℚ := (i : ℚ) / 32768

/-- decodeAudioData for mono data (numChannels = 1): reinterpret the
bytes as 16-bit values and normalize each by dividing by 32768. -/
def decodeAudioData (bytes : List ℕ) : List ℚ :=
  (bytesToInt16s bytes).map decodeSample

/-! ## Helper lemmas for the codec -/

lemma wrap16_eq_self (n : ℤ) (h1 : -32768 ≤ n) (h2 : n ≤ 32767) : wrap16 n = n := by
  unfold wrap16
  rw [Int.emod_eq_of_lt (by omega) (by omega)]
  omega

lemma clip_of_mem {x : ℚ} (h1 : -1 ≤ x) (h2 : x ≤ 1) : clip x = x := by
  unfold clip
  rw [min_eq_right h2, max_eq_right h1]

lemma sample_eq_ceil {x : ℚ} (h1 : -1 ≤ x) (hx : x < 0) :
    float32ToInt16Sample x = ⌈x * 32768⌉ := by
  unfold float32ToInt16Sample toInt16 truncTowardZero
  rw [clip_of_mem h1 (by linarith)]
  have hq : x * 32768 < 0 := by nlinarith
  rw [if_pos hx, if_neg (by linarith)]
  have hlo : (-32768 : ℤ) ≤ ⌈x * 32768⌉ := by
    have : ((-32768 : ℤ) : ℚ) ≤ x * 32768 := by push_cast; nlinarith
    calc (-32768 : ℤ) = ⌈((-32768 : ℤ) : ℚ)⌉ := (Int.ceil_intCast _).symm
      _ ≤ ⌈x * 32768⌉ := Int.ceil_le_ceil this
  have hhi : ⌈x * 32768⌉ ≤ 32767 := by
    have : ⌈x * 32768⌉ ≤ 0 := Int.ceil_le.mpr (by exact_mod_cast le_of_lt hq)
    omega
  exact wrap16_eq_self _ hlo hhi

lemma sample_eq_floor {x : ℚ} (h0 : 0 ≤ x) (h2 : x ≤ 1) :
    float32ToInt16Sample x = ⌊x * 32767⌋ := by
  unfold float32ToInt16Sample toInt16 truncTowardZero
  rw [clip_of_mem (by linarith) h2]
  have hq : 0 ≤ x * 32767 := by positivity
  rw [if_neg (by linarith), if_pos hq]
  have hlo : (-32768 : ℤ) ≤ ⌊x * 32767⌋ := by
    have : (0 : ℤ) ≤ ⌊x * 32767⌋ := Int.floor_nonneg.mpr hq
    omega
  have hhi : ⌊x * 32767⌋ ≤ 32767 := by
    calc ⌊x * 32767⌋ ≤ ⌊((32767 : ℤ) : ℚ)⌋ := Int.floor_le_floor (by push_cast; nlinarith)
      _ = 32767 := Int.floor_intCast _
  exact wrap16_eq_self _ hlo hhi

lemma wrap16_range (n : ℤ) : -32768 ≤ wrap16 n ∧ wrap16 n ≤ 32767 := by
  unfold wrap16
  omega

lemma sample_range (x : ℚ) :
    -32768 ≤ float32ToInt16Sample x ∧ float32ToInt16Sample x ≤ 32767 := by
  unfold float32ToInt16Sample toInt16
  split
  · exact wrap16_range _
  · exact wrap16_range _

lemma bytesToInt16s_cons (lo hi : ℕ) (rest : List ℕ) :
    bytesToInt16s (lo :: hi :: rest) =
      (if lo + 256 * hi < 32768 then ((lo + 256 * hi : ℕ) : ℤ)
       else ((lo + 256 * hi : ℕ) : ℤ) - 65536) :: bytesToInt16s rest := rfl

lemma bytes_roundtrip (i : ℤ) (h1 : -32768 ≤ i) (h2 : i ≤ 32767) (rest : List ℕ) :
    bytesToInt16s (int16ToBytesLE i ++ rest) = i :: bytesToInt16s rest := by
  have hm : ((i % 65536).toNat : ℤ) = i % 65536 :=
    Int.toNat_of_nonneg (Int.emod_nonneg _ (by norm_num))
  simp only [int16ToBytesLE, List.cons_append, List.nil_append, bytesToInt16s_cons]
  congr 1
  split
  · push_cast
    omega
  · push_cast
    omega

lemma encodeBytes_cons (a : ℚ) (t : List ℚ) :
    encodeBytes (a :: t) = int16ToBytesLE (float32ToInt16Sample a) ++ encodeBytes t := by
  simp [encodeBytes, float32ToInt16]

lemma decode_encode (xs : List ℚ) :
    decodeAudioData (encodeBytes xs) =
      xs.map (fun x => decodeSample (float32ToInt16Sample x)) := by
  induction xs with
  | nil => rfl
  | cons a t ih =>
    rw [encodeBytes_cons]
    unfold decodeAudioData at *
    rw [bytes_roundtrip _ (sample_range a).1 (sample_range a).2]
    simp only [List.map_cons]
    rw [ih]

lemma sample_roundtrip_bound {x : ℚ} (h1 : -1 ≤ x) (h2 : x ≤ 1) :
    |decodeSample (float32ToInt16Sample x) - x| ≤ 2/32768 ∧
    (x ≤ 0 → |decodeSample (float32ToInt16Sample x) - x| ≤ 1/32768) := by
  rcases lt_or_le x 0 with hx | hx
  · rw [sample_eq_ceil h1 hx]
    have hle : x * 32768 ≤ (⌈x * 32768⌉ : ℚ) := Int.le_ceil _
    have hlt : (⌈x * 32768⌉ : ℚ) < x * 32768 + 1 := Int.ceil_lt_add_one _
    have hdiff : decodeSample ⌈x * 32768⌉ - x = ((⌈x * 32768⌉ : ℚ) - x * 32768) / 32768 := by
      unfold decodeSample
      ring
    have hb : |decodeSample ⌈x * 32768⌉ - x| ≤ 1/32768 := by
      rw [hdiff, abs_le]
      constructor
      · rw [le_div_iff₀ (by norm_num)]
        linarith
      · rw [div_le_div_iff₀ (by norm_num) (by norm_num)]
        linarith
    exact ⟨le_trans hb (by norm_num), fun _ => hb⟩
  · rw [sample_eq_floor hx h2]
    have hle : (⌊x * 32767⌋ : ℚ) ≤ x * 32767 := Int.floor_le _
    have hlt : x * 32767 - 1 < (⌊x * 32767⌋ : ℚ) := Int.sub_one_lt_floor _
    have hdiff : decodeSample ⌊x * 32767⌋ - x = ((⌊x * 32767⌋ : ℚ) - x * 32767 - x) / 32768 := by
      unfold decodeSample
      ring
    constructor
    · rw [hdiff, abs_le]
      constructor
      · rw [le_div_iff₀ (by norm_num)]
        linarith
      · rw [div_le_div_iff₀ (by norm_num) (by norm_num)]
        linarith
    · intro hx0
      have hx00 : x = 0 := le_antisymm hx0 hx
      subst hx00
      have : (⌊(0 : ℚ) * 32767⌋ : ℚ) = 0 := by
        norm_num
      rw [hdiff, this]
      norm_num

/-! ## Claim C2: codec round trip -/

/-- C2 (amended): for every sequence of samples in [-1, 1], decoding the
encoded wire bytes reproduces each sample within 2/32768 (twice the
claimed bound); for non-positive samples the error is within the claimed
1/32768.  The original 1/32768 bound fails for positive samples because
encoding scales them by 32767 while decoding divides by 32768. -/
theorem C2_codec_roundtrip_amended (xs : List ℚ) (h : ∀ x ∈ xs, -1 ≤ x ∧ x ≤ 1) :
    List.Forall₂
      (fun y x => |y - x| ≤ 2/32768 ∧ (x ≤ 0 → |y - x| ≤ 1/32768))
      (decodeAudioData (encodeBytes xs)) xs := by
  rw [decode_encode, List.forall₂_map_left_iff, List.forall₂_same]
  intro x hx
  exact sample_roundtrip_bound (h x hx).1 (h x hx).2

/-- C2 witness: the amended round-trip bound applied to the concrete
one-sample sequence [1/2]. -/
theorem C2_codec_roundtrip_amended_witness :
    List.Forall₂
      (fun y x => |y - x| ≤ 2/32768 ∧ (x ≤ 0 → |y - x| ≤ 1/32768))
      (decodeAudioData (encodeBytes [(1 : ℚ)/2])) [(1 : ℚ)/2] :=
  C2_codec_roundtrip_amended [(1 : ℚ)/2] (by
    intro x hx
    rw [List.mem_singleton] at hx
    subst hx
    norm_num)

/-- C2 counterexample: the sample 65535/65536 lies in [-1, 1] but decodes
to 16383/16384, an error of 3/65536, which exceeds the claimed maximum
error of 1/32768 = 2/65536. -/
theorem C2_codec_roundtrip_counterexample :
    decodeAudioData (encodeBytes [(65535 : ℚ)/65536]) = [(16383 : ℚ)/16384] ∧
    ¬|(16383 : ℚ)/16384 - (65535 : ℚ)/65536| ≤ 1/32768 ∧
    -1 ≤ (65535 : ℚ)/65536 ∧ (65535 : ℚ)/65536 ≤ 1 := by
  have h1 : float32ToInt16Sample ((65535 : ℚ)/65536) = 32766 := by
    rw [sample_eq_floor (by norm_num) (by norm_num), Int.floor_eq_iff]
    constructor
    · push_cast
      norm_num
    · push_cast
      norm_num
  refine ⟨?_, by rw [abs_le]; norm_num, by norm_num, by norm_num⟩
  rw [decode_encode]
  simp only [List.map_cons, List.map_nil, h1]
  norm_num [decodeSample]

/-! ## Claim C3: codec clipping -/

/-- C3: encoding clips out-of-range input: every sample at least 1 encodes
to exactly 32767 and every sample at most -1 encodes to exactly -32768,
with no overflow. -/
theorem C3_codec_clipping (x : ℚ) :
    (1 ≤ x → float32ToInt16Sample x = 32767) ∧
    (x ≤ -1 → float32ToInt16Sample x = -32768) := by
  constructor
  · intro hx
    have hc : clip x = 1 := by
      unfold clip
      rw [min_eq_left hx]
      norm_num
    unfold float32ToInt16Sample toInt16 truncTowardZero
    rw [hc, if_neg (by norm_num), one_mul, if_pos (by norm_num)]
    have : ⌊(32767 : ℚ)⌋ = 32767 := by
      norm_num
    rw [this]
    exact wrap16_eq_self _ (by norm_num) (by norm_num)
  · intro hx
    have hc : clip x = -1 := by
      unfold clip
      rw [min_eq_right (by linarith), max_eq_left hx]
    unfold float32ToInt16Sample toInt16 truncTowardZero
    rw [hc, if_pos (by norm_num)]
    have hm : (-1 : ℚ) * 32768 = ((-32768 : ℤ) : ℚ) := by
      push_cast
      ring
    rw [hm, if_neg (by push_cast; norm_num), Int.ceil_intCast]
    exact wrap16_eq_self _ (by norm_num) (by norm_num)

/-- C3 witness: the clipping behaviour at the concrete out-of-range
samples 2 and -2 from the spec. -/
theorem C3_codec_clipping_witness :
    float32ToInt16Sample 2 = 32767 ∧ float32ToInt16Sample (-2) = -32768 :=
  ⟨(C3_codec_clipping 2).1 (by norm_num), (C3_codec_clipping (-2)).2 (by norm_num)⟩

/-! ## Speech playback scheduler (GeminiLiveService.playBuffer) -/

/-- Scheduling step of playBuffer: from the current audio clock `now`,
the playback cursor (nextStartTime) and the buffer duration, return the
scheduled start time and the advanced cursor.  Mirrors
nextStartTime = max(currentTime, nextStartTime); start(nextStartTime);
nextStartTime += buffer.duration. -/
def playBuffer (now cursor dur : ℚ) : ℚ × ℚ :=
  (max now cursor, max now cursor + dur)

/-- C1: for two buffers enqueued in order with positive first duration,
the cursor advances from the scheduled start by the duration, the second
buffer never starts before the first ends, enqueues at the same instant
concatenate exactly, and the cursor strictly increases, by at least the
duration of each buffer. -/
theorem C1_playback_scheduling (now1 now2 d1 d2 c0 : ℚ) (hd1 : 0 < d1) :
    (playBuffer now1 c0 d1).2 = (playBuffer now1 c0 d1).1 + d1 ∧
    (playBuffer now1 c0 d1).1 + d1 ≤ (playBuffer now2 (playBuffer now1 c0 d1).2 d2).1 ∧
    (now2 = now1 →
      (playBuffer now2 (playBuffer now1 c0 d1).2 d2).1 = (playBuffer now1 c0 d1).1 + d1) ∧
    c0 < (playBuffer now1 c0 d1).2 ∧
    c0 + d1 ≤ (playBuffer now1 c0 d1).2 := by
  have hs1 : now1 ≤ max now1 c0 := le_max_left _ _
  have hc0 : c0 ≤ max now1 c0 := le_max_right _ _
  refine ⟨rfl, le_max_right _ _, ?_, ?_, ?_⟩
  · intro h
    subst h
    exact max_eq_right (by
      show now2 ≤ max now2 c0 + d1
      linarith)
  · show c0 < max now1 c0 + d1
    linarith
  · show c0 + d1 ≤ max now1 c0 + d1
    linarith

/-- C1 witness: scheduling at concrete times: cursor 0, clock 1, then a
1-second and a half-second buffer enqueued at the same instant. -/
theorem C1_playback_scheduling_witness :
    (playBuffer 1 0 1).2 = (playBuffer 1 0 1).1 + 1 ∧
    (playBuffer 1 0 1).1 + 1 ≤ (playBuffer 1 (playBuffer 1 0 1).2 (1/2)).1 ∧
    ((1 : ℚ) = 1 →
      (playBuffer 1 (playBuffer 1 0 1).2 (1/2)).1 = (playBuffer 1 0 1).1 + 1) ∧
    (0 : ℚ) < (playBuffer 1 0 1).2 ∧
    (0 : ℚ) + 1 ≤ (playBuffer 1 0 1).2 :=
  C1_playback_scheduling 1 1 1 (1/2) 0 (by norm_num)

/-! ## Procedural music engine state (LoFiSynth) -/

/-- State of the LoFiSynth engine relevant to style, transposition and
gain: current style, transpose offset, fixed base volume, user volume
and the ducking flag. -/
structure SynthState where
  style : String
  transposeSteps : ℤ
  baseVolume : ℚ
  userVolume : ℚ
  isDucking : Bool
deriving DecidableEq

/-- Field defaults of the LoFiSynth constructor: style lofi, transpose 0,
baseVolume 0.3, userVolume 1.0, not ducking. -/
def initialSynthState : SynthState := ⟨"lofi", 0, 3/10, 1, false⟩

/-- Master-gain ramp target computed in updateGain:
baseVolume * userVolume * (isDucking ? 0.2 : 1.0). -/
def gainTarget (st : SynthState) : ℚ :=
  st.baseVolume * st.userVolume * (if st.isDucking then 1/5 else 1)

/-- duck(active): early-returns when the flag already has that value,
otherwise flips the flag (and re-ramps the gain to the new target). -/
def duck (st : SynthState) (active : Bool) : SynthState :=
  if st.isDucking = active then st else { st with isDucking := active }

/-- setMasterVolume: stores Math.max(0, Math.min(1, vol)) as the user
volume. -/
def setMasterVolume (st : SynthState) (v : ℚ) : SynthState :=
  { st with userVolume := max 0 (min 1 v) }

/-- Transpose offset drawn in changeSong:
Math.floor(Math.random() * 12) - 5, with the random draw r in [0, 1). -/
def changeSongTranspose (r : ℚ) : ℤ := ⌊r * 12⌋ - 5

/-- changeSong: redraw the transpose offset. -/
def changeSong (st : SynthState) (r : ℚ) : SynthState :=
  { st with transposeSteps := changeSongTranspose r }

/-- hay starts with needle, on character lists. -/
def startsWithCh : List Char → List Char → Bool
  | [], _ => true
  | _ :: _, [] => false
  | c :: cs, d :: ds => c == d && startsWithCh cs ds

/-- needle occurs as a contiguous substring of hay, on character lists. -/
def hasSub (needle : List Char) : List Char → Bool
  | [] => startsWithCh needle []
  | c :: t => startsWithCh needle (c :: t) || hasSub needle t

/-- JavaScript String.prototype.includes: substring containment. -/
def includes (hay needle : String) : Bool := hasSub needle.data hay.data

/-- Keyword matching of setMusicStyle on the lowercased hint. -/
def styleFromHint (s : String) : String :=
  if includes s "rock" then "rock"
  else if includes s "techno" || includes s "house" then "techno"
  else if includes s "classical" || includes s "piano" then "classical"
  else if includes s "ambient" || includes s "focus" then "ambient"
  else "lofi"

/-- Lowercasing of a string, character by character (the toLowerCase
call in setMusicStyle). -/
def toLowerStr (s : String) : String := ⟨s.data.map Char.toLower⟩

/-- Style name stored by setMusicStyle: lowercase the free-text hint and
match genre keywords, defaulting to lofi. -/
def setMusicStyleName (style : String) : String := styleFromHint (toLowerStr style)

/-- setMusicStyle: store the matched style, then changeSong (with random
draw r). -/
def setMusicStyle (st : SynthState) (r : ℚ) (style : String) : SynthState :=
  changeSong { st with style := setMusicStyleName style } r

lemma duck_eq (st : SynthState) (active : Bool) :
    duck st active = { st with isDucking := active } := by
  unfold duck
  split
  · next h =>
    rcases st with ⟨a, b, c, d, e⟩
    simp only at h
    rw [h]
  · rfl

/-! ## Claim C5: duck idempotence and attenuation -/

/-- C5: duck(true) twice yields the same gain target as once (the state
itself is unchanged by the repeat), the ducked target is 0.2 times the
product of base level and user volume, and duck(false) afterwards
restores the pre-duck gain target. -/
theorem C5_duck_idempotent (st : SynthState) :
    duck (duck st true) true = duck st true ∧
    gainTarget (duck st true) = 1/5 * (st.baseVolume * st.userVolume) ∧
    (st.isDucking = false → gainTarget (duck (duck st true) false) = gainTarget st) := by
  refine ⟨?_, ?_, ?_⟩
  · simp [duck_eq]
  · simp [duck_eq, gainTarget]
    ring
  · intro h
    simp [duck_eq, gainTarget, h]

/-- C5 witness: duck behaviour at the initial engine state, whose
pre-duck target is the base volume 0.3. -/
theorem C5_duck_idempotent_witness :
    duck (duck initialSynthState true) true = duck initialSynthState true ∧
    gainTarget (duck initialSynthState true)
      = 1/5 * (initialSynthState.baseVolume * initialSynthState.userVolume) ∧
    gainTarget (duck (duck initialSynthState true) false) = gainTarget initialSynthState :=
  ⟨(C5_duck_idempotent initialSynthState).1,
   (C5_duck_idempotent initialSynthState).2.1,
   (C5_duck_idempotent initialSynthState).2.2 rfl⟩

/-! ## Claim C6: style fallback -/

/-- C6: for every input string the stored style is a member of the closed
preset set, and when the lowercased input contains none of the genre
keywords the style falls back to lofi; setMusicStyle is total, so it
never throws. -/
theorem C6_style_fallback (style : String) (st : SynthState) (r : ℚ) :
    (setMusicStyle st r style).style
      ∈ (["lofi", "rock", "techno", "classical", "ambient"] : List String) ∧
    ((includes (toLowerStr style) "rock" = false ∧
      includes (toLowerStr style) "techno" = false ∧
      includes (toLowerStr style) "house" = false ∧
      includes (toLowerStr style) "classical" = false ∧
      includes (toLowerStr style) "piano" = false ∧
      includes (toLowerStr style) "ambient" = false ∧
      includes (toLowerStr style) "focus" = false) →
      (setMusicStyle st r style).style = "lofi") := by
  constructor
  · show setMusicStyleName style ∈ _
    unfold setMusicStyleName styleFromHint
    split
    · simp
    · split
      · simp
      · split
        · simp
        · split
          · simp
          · simp
  · rintro ⟨h1, h2, h3, h4, h5, h6, h7⟩
    show setMusicStyleName style = "lofi"
    unfold setMusicStyleName styleFromHint
    simp [h1, h2, h3, h4, h5, h6, h7]

/-- C6 witness: the unrecognized hint banana from the spec falls back to
the lofi preset and lies in the preset set. -/
theorem C6_style_fallback_witness :
    (setMusicStyle initialSynthState 0 "banana").style
      ∈ (["lofi", "rock", "techno", "classical", "ambient"] : List String) ∧
    (setMusicStyle initialSynthState 0 "banana").style = "lofi" :=
  ⟨(C6_style_fallback "banana" initialSynthState 0).1,
   (C6_style_fallback "banana" initialSynthState 0).2
     (by refine ⟨?_, ?_, ?_, ?_, ?_, ?_, ?_⟩ <;> decide)⟩

/-! ## Claim C7: transpose offset range -/

/-- C7 counterexample: with random draw 11/12 (a legal value in [0, 1)),
changeSong sets the transpose offset to 6, outside the claimed range of
-5 to +5 semitones. -/
theorem C7_transpose_range_counterexample :
    changeSongTranspose (11/12) = 6 ∧
    ¬(changeSongTranspose (11/12) ≤ 5) ∧
    0 ≤ (11/12 : ℚ) ∧ (11/12 : ℚ) < 1 := by
  have h : changeSongTranspose (11/12) = 6 := by
    unfold changeSongTranspose
    have : ⌊(11/12 : ℚ) * 12⌋ = 11 := by
      rw [Int.floor_eq_iff]
      constructor
      · push_cast
        norm_num
      · push_cast
        norm_num
    rw [this]
    decide
  refine ⟨h, by rw [h]; norm_num, by norm_num, by norm_num⟩

/-- C7 (amended): for every random draw in [0, 1) the persistent
transpose offset drawn by changeSong lies between -5 and +6 inclusive
(not +5 as claimed), and the offset is rewritten only by changeSong and
setMusicStyle, while duck and setMasterVolume leave it unchanged. -/
theorem C7_transpose_range_amended (r v : ℚ) (st : SynthState) (active : Bool)
    (s : String) (h0 : 0 ≤ r) (h1 : r < 1) :
    (-5 ≤ changeSongTranspose r ∧ changeSongTranspose r ≤ 6) ∧
    (changeSong st r).transposeSteps = changeSongTranspose r ∧
    (setMusicStyle st r s).transposeSteps = changeSongTranspose r ∧
    (duck st active).transposeSteps = st.transposeSteps ∧
    (setMasterVolume st v).transposeSteps = st.transposeSteps := by
  refine ⟨⟨?_, ?_⟩, rfl, rfl, ?_, rfl⟩
  · unfold changeSongTranspose
    have : (0 : ℤ) ≤ ⌊r * 12⌋ := Int.floor_nonneg.mpr (by positivity)
    omega
  · unfold changeSongTranspose
    have : ⌊r * 12⌋ < 12 := Int.floor_lt.mpr (by push_cast; linarith)
    omega
  · simp [duck_eq]

/-- C7 witness: the amended range at the concrete draw 0 (offset -5). -/
theorem C7_transpose_range_amended_witness :
    ((-5 ≤ changeSongTranspose 0 ∧ changeSongTranspose 0 ≤ 6) ∧
    (changeSong initialSynthState 0).transposeSteps = changeSongTranspose 0 ∧
    (setMusicStyle initialSynthState 0 "rock").transposeSteps = changeSongTranspose 0 ∧
    (duck initialSynthState true).transposeSteps = initialSynthState.transposeSteps ∧
    (setMasterVolume initialSynthState (1/2)).transposeSteps
      = initialSynthState.transposeSteps) :=
  C7_transpose_range_amended 0 (1/2) initialSynthState true "rock" (by norm_num) (by norm_num)

/-! ## Claim C10: master volume clamping and gain bound -/

/-- Invariant on the synth state: the base volume is the constant 0.3 the
constructor sets and the user volume is clamped to [0, 1]. -/
def VolumeInv (st : SynthState) : Prop :=
  st.baseVolume = 3/10 ∧ 0 ≤ st.userVolume ∧ st.userVolume ≤ 1

/-- C10: setMasterVolume stores the clamped value min(1, max(0, v)); the
clamp invariant holds initially and is preserved by setMasterVolume and
duck; and under the invariant the master-gain target always lies in
[0, 0.3]. -/
theorem C10_gain_bound (st : SynthState) (v : ℚ) (active : Bool) :
    (setMasterVolume st v).userVolume = min 1 (max 0 v) ∧
    VolumeInv initialSynthState ∧
    (VolumeInv st → VolumeInv (setMasterVolume st v) ∧ VolumeInv (duck st active)) ∧
    (VolumeInv st → 0 ≤ gainTarget st ∧ gainTarget st ≤ 3/10) := by
  refine ⟨?_, ?_, ?_, ?_⟩
  · show max 0 (min 1 v) = min 1 (max 0 v)
    rw [max_min_distrib_left]
    norm_num
  · exact ⟨rfl, by norm_num [initialSynthState], by norm_num [initialSynthState]⟩
  · rintro ⟨hb, hu0, hu1⟩
    refine ⟨⟨hb, ?_, ?_⟩, ?_⟩
    · exact le_max_left _ _
    · show max 0 (min 1 v) ≤ 1
      rw [max_le_iff]
      exact ⟨by norm_num, min_le_left _ _⟩
    · rw [duck_eq]
      exact ⟨hb, hu0, hu1⟩
  · rintro ⟨hb, hu0, hu1⟩
    unfold gainTarget
    rw [hb]
    split
    · constructor
      · positivity
      · nlinarith
    · constructor
      · positivity
      · nlinarith

/-- C10 witness: volume clamping and gain bound at the initial state with
the out-of-range volume input 2. -/
theorem C10_gain_bound_witness :
    (setMasterVolume initialSynthState 2).userVolume = min 1 (max 0 2) ∧
    (VolumeInv (setMasterVolume initialSynthState 2) ∧
      VolumeInv (duck initialSynthState true)) ∧
    (0 ≤ gainTarget initialSynthState ∧ gainTarget initialSynthState ≤ 3/10) :=
  ⟨(C10_gain_bound initialSynthState 2 true).1,
   (C10_gain_bound initialSynthState 2 true).2.2.1
     ⟨rfl, by norm_num [initialSynthState], by norm_num [initialSynthState]⟩,
   (C10_gain_bound initialSynthState 2 true).2.2.2
     ⟨rfl, by norm_num [initialSynthState], by norm_num [initialSynthState]⟩⟩

/-! ## Live session manager state (GeminiLiveService) -/

/-- Resource handles and flags of a GeminiLiveService instance.  A handle
value of none models a null field. -/
structure LiveState where
  sessionPromise : Option Unit
  inputAudioContext : Option Unit
  outputAudioContext : Option Unit
  mediaStream : Option Unit
  processor : Option Unit
  source : Option Unit
  elClient : Option Unit
  isMicMuted : Bool
  nextStartTime : ℚ
deriving DecidableEq

/-- Field initializers of the GeminiLiveService constructor: every handle
null, microphone muted, playback cursor 0. -/
def initialLiveState : LiveState :=
  ⟨none, none, none, none, none, none, none, true, 0⟩

/-- setMicMuted: stores the flag (and reports amplitude 0 when muting);
no other field is touched. -/
def setMicMuted (st : LiveState) (m : Bool) : LiveState :=
  { st with isMicMuted := m }

/-- Mean absolute amplitude of a captured frame, as computed in the
onaudioprocess handler for the visualization callback. -/
def meanAbs (f : List ℚ) : ℚ := (f.map (fun x => |x|)).sum / f.length

/-- Observable outcome of one onaudioprocess invocation: the wire bytes
handed to sendRealtimeInput (none when nothing is sent), the amplitude
reported through onAudioData, and whether a user speaking signal fires. -/
structure FrameResult where
  transmitted : Option (List ℕ)
  amplitude : ℚ
  userSpeaking : Bool
deriving DecidableEq

/-- Capture handler of startAudioInput: when muted, report amplitude 0
and send nothing; otherwise report the mean amplitude, fire the user
speaking signal above the 0.01 threshold, and send the encoded frame to
the session (when a session promise exists). -/
def processFrame (st : LiveState) (frame : List ℚ) : FrameResult :=
  if st.isMicMuted then ⟨none, 0, false⟩
  else
    ⟨if st.sessionPromise.isSome then some (encodeBytes frame) else none,
     meanAbs frame,
     decide (meanAbs frame > 1/100)⟩

/-! ## Claim C4: mute gating -/

/-- C4: while muted nothing is transmitted and the reported amplitude is
0, the frame outcome is independent of the captured signal (two runs
differing only in microphone input are indistinguishable), and clearing
the flag touches no transport handle, so the very next captured frame is
encoded and transmitted on the existing session. -/
theorem C4_mute_gating (st : LiveState) (f1 f2 : List ℚ) (hm : st.isMicMuted = true) :
    (processFrame st f1).transmitted = none ∧
    (processFrame st f1).amplitude = 0 ∧
    processFrame st f1 = processFrame st f2 ∧
    (setMicMuted st false).sessionPromise = st.sessionPromise ∧
    (setMicMuted st false).inputAudioContext = st.inputAudioContext ∧
    (setMicMuted st false).outputAudioContext = st.outputAudioContext ∧
    (setMicMuted st false).mediaStream = st.mediaStream ∧
    (st.sessionPromise.isSome = true →
      (processFrame (setMicMuted st false) f1).transmitted = some (encodeBytes f1)) := by
  refine ⟨?_, ?_, ?_, rfl, rfl, rfl, rfl, ?_⟩
  · simp [processFrame, hm]
  · simp [processFrame, hm]
  · simp [processFrame, hm]
  · intro hs
    simp [processFrame, setMicMuted, hs]

/-- C4 witness: mute gating on a muted open session, with a loud frame
and a silent frame. -/
theorem C4_mute_gating_witness :
    (processFrame { initialLiveState with sessionPromise := some () } [1]).transmitted
      = none ∧
    (processFrame { initialLiveState with sessionPromise := some () } [1]).amplitude = 0 ∧
    processFrame { initialLiveState with sessionPromise := some () } [1]
      = processFrame { initialLiveState with sessionPromise := some () } [0] ∧
    (setMicMuted { initialLiveState with sessionPromise := some () } false).sessionPromise
      = ({ initialLiveState with sessionPromise := some () } : LiveState).sessionPromise ∧
    (setMicMuted { initialLiveState with sessionPromise := some () } false).inputAudioContext
      = ({ initialLiveState with sessionPromise := some () } : LiveState).inputAudioContext ∧
    (setMicMuted { initialLiveState with sessionPromise := some () } false).outputAudioContext
      = ({ initialLiveState with sessionPromise := some () } : LiveState).outputAudioContext ∧
    (setMicMuted { initialLiveState with sessionPromise := some () } false).mediaStream
      = ({ initialLiveState with sessionPromise := some () } : LiveState).mediaStream ∧
    (({ initialLiveState with sessionPromise := some () } : LiveState).sessionPromise.isSome
        = true →
      (processFrame
        (setMicMuted { initialLiveState with sessionPromise := some () } false)
        [1]).transmitted = some (encodeBytes [1])) :=
  C4_mute_gating { initialLiveState with sessionPromise := some () } [1] [0] rfl

/-! ## Claim C8: disconnect idempotence -/

/-- disconnect: detach and null every resource handle; every access in
the source is null-guarded, so the operation is total. -/
def disconnect (st : LiveState) : LiveState :=
  { st with
      sessionPromise := none
      inputAudioContext := none
      outputAudioContext := none
      mediaStream := none
      processor := none
      source := none
      elClient := none }

/-- C8: after disconnect every resource handle is null, a second
disconnect is a no-op, and disconnect on a never-connected manager (the
freshly constructed state) is harmless and leaves the state unchanged. -/
theorem C8_disconnect_idempotent (st : LiveState) :
    (disconnect st).sessionPromise = none ∧
    (disconnect st).inputAudioContext = none ∧
    (disconnect st).outputAudioContext = none ∧
    (disconnect st).mediaStream = none ∧
    (disconnect st).processor = none ∧
    (disconnect st).source = none ∧
    (disconnect st).elClient = none ∧
    disconnect (disconnect st) = disconnect st ∧
    disconnect initialLiveState = initialLiveState :=
  ⟨rfl, rfl, rfl, rfl, rfl, rfl, rfl, rfl, rfl⟩

/-! ## Claim C9: news lookup error handling -/

/-- Apology string returned by fetchNews when the secondary request
throws. -/
def newsApology : String :=
  "I couldn't grab the news wire right now. Let's get back to the music."

/-- Fallback string returned when the response carries no text. -/
def newsFallback : String := "No news found at the moment."

/-- Outcome of the secondary generateContent request inside fetchNews:
either the request throws, or it yields a response whose text field may
be absent. -/
inductive NewsOutcome where
  | failure : NewsOutcome
  | success : Option String → NewsOutcome
deriving DecidableEq

/-- fetchNews: return the response text when it is non-empty, the fixed
fallback when the response has no (or empty, hence falsy) text, and the
pre-set apology when the request throws; always a string, never an
exception. -/
def fetchNews (_topic : String) (outcome : NewsOutcome) : String :=
  match outcome with
  | .failure => newsApology
  | .success none => newsFallback
  | .success (some t) => if t = "" then newsFallback else t

/-- C9: for every topic the news lookup maps a thrown request to the
pre-set apology string, an absent or empty response text to the fixed
fallback string, and a non-empty text to itself; it is total, hence the
getNews handler always returns a string and never propagates an error. -/
theorem C9_news_error_handling (topic : String) :
    fetchNews topic .failure = newsApology ∧
    fetchNews topic (.success none) = newsFallback ∧
    fetchNews topic (.success (some "")) = newsFallback ∧
    (∀ t : String, t ≠ "" → fetchNews topic (.success (some t)) = t) := by
  refine ⟨rfl, rfl, rfl, ?_⟩
  intro t ht
  simp [fetchNews, ht]

/-- C9 witness: the news lookup outcomes at the concrete topic general
and a concrete non-empty headline text. -/
theorem C9_news_error_handling_witness :
    fetchNews "general" .failure = newsApology ∧
    fetchNews "general" (.success none) = newsFallback ∧
    fetchNews "general" (.success (some "")) = newsFallback ∧
    fetchNews "general" (.success (some "Top headline")) = "Top headline" :=
  ⟨(C9_news_error_handling "general").1,
   (C9_news_error_handling "general").2.1,
   (C9_news_error_handling "general").2.2.1,
   (C9_news_error_handling "general").2.2.2 "Top headline" (by decide)⟩

end Radio
